import Mathlib

/-!
Verification development for the GSA_tools repository
(`GSA_tools.py` and `additional_scripts/read_manifest_writer.py`).

The Python sources are shallowly embedded below: pure string/list
manipulations become Lean functions over `String` / `List Char`, the
filesystem and the batch loop become explicit data (lists of paths or an
oracle function), and failure (a propagating Python exception) becomes
`Except` / an explicit error component.  Filenames and file contents are
treated as sequences of characters; `re.IGNORECASE` matching is modelled
by lowercasing (faithful on ASCII, which is all the patterns mention).
-/

/-! ### Shared character/string utilities -/

/-- Whitespace characters recognised by Python's `str.strip()` / `\s`
(the `str.isspace` set). -/
def isPyWS (c : Char) : Bool :=
  c == ' ' || c == '\t' || c == '\n' || c == '\r' || c == '\x0b' || c == '\x0c' ||
  c == '\x1c' || c == '\x1d' || c == '\x1e' || c == '\x1f' || c == '\x85' || c == '\xa0' ||
  c == ' ' || c == ' ' || c == ' ' || c == ' ' || c == ' ' ||
  c == ' ' || c == ' ' || c == ' ' || c == ' ' || c == ' ' ||
  c == ' ' || c == ' ' || c == ' ' || c == ' ' || c == ' ' ||
  c == ' ' || c == '　'

/-- Python `str.lstrip()` on a character list. -/
def lstripL (l : List Char) : List Char := l.dropWhile isPyWS

/-- Python `str.rstrip()` on a character list. -/
def rstripL (l : List Char) : List Char := (l.reverse.dropWhile isPyWS).reverse

/-- Python `str.strip()` on a character list. -/
def pyStripL (l : List Char) : List Char := rstripL (lstripL l)

/-- Python `str.strip()` on a `String`. -/
def pyStripStr (s : String) : String := ⟨pyStripL s.data⟩

/-- ASCII lowercasing of a character list (model of `re.IGNORECASE`
for the ASCII patterns used by the sources). -/
def lowerL (l : List Char) : List Char := l.map Char.toLower

/-- Python `str.split(sep)` for a single-character separator, on a
character list: split at every occurrence, empty input giving one empty
field. -/
def splitOnCharL (sep : Char) : List Char → List (List Char)
  | [] => [[]]
  | c :: cs =>
    if c = sep then [] :: splitOnCharL sep cs
    else
      match splitOnCharL sep cs with
      | [] => [[c]]
      | f :: r => (c :: f) :: r

/-- Python `str.split(",")` on a character list. -/
def splitComma : List Char → List (List Char) := splitOnCharL ','

/-- Python `str.split(sep)` on a `String`, producing `String` fields. -/
def pySplit (sep : Char) (s : String) : List String :=
  (splitOnCharL sep s.data).map (fun l => String.mk l)

/-- Python `",".join(...)` on character lists. -/
def joinComma : List (List Char) → List Char
  | [] => []
  | [f] => f
  | f :: g :: r => f ++ ',' :: joinComma (g :: r)

/-- Boolean "is a contiguous prefix" on character lists. -/
def isPrefixL : List Char → List Char → Bool
  | [], _ => true
  | _ :: _, [] => false
  | a :: as, b :: bs => a == b && isPrefixL as bs

/-- Python's substring containment `p in s` on character lists. -/
def isInfixL (p : List Char) : List Char → Bool
  | [] => isPrefixL p []
  | c :: t => isPrefixL p (c :: t) || isInfixL p t

/-- Python `sorted(...)` on strings (lexicographic by code point). -/
def pysorted (l : List String) : List String := List.insertionSort (· ≤ ·) l

/-! ### Read-role classification (shared data model)

`GSA_tools.write_read_manifest` and the standalone
`read_manifest_writer.py` both classify fastq filenames with the regexes
`R1_RE`/`R2_RE` and bucket every other file as a long read. -/

/-- The role a fastq filename is bucketed into by the classifier. -/
inductive Role where
  | short1
  | short2
  | long
deriving DecidableEq, Repr

/-- One sample (BioSample) directory as seen by the manifest writers:
its path string and the filenames returned by the `*.f*q.gz` glob,
in directory listing order. -/
structure SampleDir where
  path : String
  files : List String
deriving DecidableEq, Repr

namespace GSATools

/-- Character class `[_\.-]` of the paired-end regexes in
`GSA_tools.write_read_manifest`. -/
def sepChar (c : Char) : Bool := c == '_' || c == '.' || c == '-'

/-- The `\.(f(ast)?q)\.gz$` tail of the regexes, on lowercased input:
the remainder must be exactly `.fastq.gz` or `.fq.gz`. -/
def fastqExt : List Char → Bool
  | '.' :: 'f' :: 'a' :: 's' :: 't' :: 'q' :: '.' :: 'g' :: 'z' :: [] => true
  | '.' :: 'f' :: 'q' :: '.' :: 'g' :: 'z' :: [] => true
  | _ => false

/-- The lookahead `(?=[_\.-]?\.(f(ast)?q)\.gz$)`. -/
def lookahead (s : List Char) : Bool :=
  fastqExt s ||
    (match s with
     | c :: t => sepChar c && fastqExt t
     | [] => false)

/-- The token `(?:[RrFf]?d)` (on lowercased input: optional `r`/`f`,
then the digit `d`) followed by the lookahead. -/
def tokenAt (d : Char) : List Char → Bool
  | c :: t =>
    ((c == 'r' || c == 'f') &&
      (match t with
       | c2 :: t2 => c2 == d && lookahead t2
       | [] => false)) ||
    (c == d && lookahead t)
  | [] => false

/-- `re.search` of `(?:^|[_\.-])(?:[RrFf]?d)(?=[_\.-]?\.(f(ast)?q)\.gz$)`
over a lowercased name: try the start-of-string boundary at position 0,
and the one-separator-consuming boundary at every position. -/
def searchAux (d : Char) : List Char → Bool → Bool
  | [], _ => false
  | c :: t, first =>
    (first && tokenAt d (c :: t)) || (sepChar c && tokenAt d t) || searchAux d t false

/-- `R1_RE.search(name)` (for `d = '1'`) / `R2_RE.search(name)`
(for `d = '2'`) as a Boolean, `re.IGNORECASE` modelled by lowercasing. -/
def regexSearch (d : Char) (name : String) : Bool :=
  searchAux d (lowerL name.data) true

/-- The per-file classification in `write_read_manifest`:
`R1_RE` first, else `R2_RE`, else the long-read bucket. -/
def readRole (name : String) : Role :=
  if regexSearch '1' name then Role.short1
  else if regexSearch '2' name then Role.short2
  else Role.long

/-- Files of one directory falling into a given bucket. -/
def bucketFiles (files : List String) (r : Role) : List String :=
  files.filter (fun f => readRole f == r)

/-- The `status` column computed by `write_read_manifest` for one
sample directory's fastq files. -/
def status_of (files : List String) : String :=
  let has_short := !(bucketFiles files Role.short1).isEmpty &&
                   !(bucketFiles files Role.short2).isEmpty
  let has_long := !(bucketFiles files Role.long).isEmpty
  if has_short && has_long then "hybrid"
  else if has_short then "short_only"
  else if has_long then "long_only"
  else "unknown"

end GSATools

/-! ### Claim C1: orphan forward mates never give `short_only` -/

/-- C1. In `write_read_manifest`, each fastq filename is bucketed by
testing the read-1 regex, then the read-2 regex, else the long-read
bucket; `has_short` requires both paired buckets non-empty.  Hence a
directory holding `sample_R1.fastq.gz` (classified read-1) together with
any files none of which match the read-2 pattern has status `unknown`
when the long bucket is empty and `long_only` otherwise, and is never
`short_only`. -/
theorem c1_orphan_r1_never_short_only (others : List String)
    (h : ∀ f ∈ others, GSATools.readRole f ≠ Role.short2) :
    GSATools.readRole "sample_R1.fastq.gz" = Role.short1 ∧
    GSATools.status_of ("sample_R1.fastq.gz" :: others) =
      (if (GSATools.bucketFiles ("sample_R1.fastq.gz" :: others) Role.long).isEmpty
        then "unknown" else "long_only") ∧
    GSATools.status_of ("sample_R1.fastq.gz" :: others) ≠ "short_only" := by
  have hr1 : GSATools.readRole "sample_R1.fastq.gz" = Role.short1 := by decide
  have h2 : GSATools.bucketFiles ("sample_R1.fastq.gz" :: others) Role.short2 = [] := by
    rw [GSATools.bucketFiles, List.filter_eq_nil_iff]
    intro f hf
    rcases List.mem_cons.mp hf with hf | hf
    · subst hf; simp [hr1]
    · simpa using h f hf
  refine ⟨hr1, ?_, ?_⟩ <;>
    · rw [GSATools.status_of, h2]
      cases hl : (GSATools.bucketFiles ("sample_R1.fastq.gz" :: others) Role.long).isEmpty <;>
        simp

/-- Witness for C1 at a concrete directory: the orphan forward mate plus
one long read, with the hypothesis discharged by evaluation. -/
theorem c1_orphan_r1_never_short_only_witness :
    (∀ f ∈ ["nanopore.fastq.gz"], GSATools.readRole f ≠ Role.short2) ∧
    GSATools.status_of ["sample_R1.fastq.gz", "nanopore.fastq.gz"] ≠ "short_only" :=
  ⟨by decide, (c1_orphan_r1_never_short_only ["nanopore.fastq.gz"] (by decide)).2.2⟩

/-! ### Claim C2: `filter_runinfo_by_scientific_name` -/

/-- Python `line.rstrip("\n")`: drop trailing newline characters. -/
def rstripNewline (s : String) : String :=
  ⟨(s.data.reverse.dropWhile (fun c => c == '\n')).reverse⟩

/-- Case-insensitive substring containment
`needle.lower() in hay.lower()` from the filter. -/
def containsCI (hay needle : String) : Bool :=
  isInfixL (lowerL needle.data) (lowerL hay.data)

/-- The per-row predicate of `filter_runinfo_by_scientific_name`:
split the newline-stripped line on commas, require at least 22 columns,
and require the lowercased 22nd column (index 21) to contain the
lowercased genome string. -/
def keepRow (genome : String) (line : String) : Bool :=
  decide (22 ≤ (pySplit ',' (rstripNewline line)).length) &&
    containsCI ((pySplit ',' (rstripNewline line)).getD 21 "") genome

/-- `filter_runinfo_by_scientific_name` on a file given as its list of
lines: the first line (header) is copied through unconditionally, every
later line is kept exactly when `keepRow` accepts it. -/
def filter_runinfo_by_scientific_name (genome : String) : List String → List String
  | [] => []
  | header :: rest => header :: rest.filter (keepRow genome)

/-- C2. The filter never increases the number of data rows, always
writes the original header line first, and every surviving data row
splits into at least 22 comma-separated fields whose field of index 21
contains the query case-insensitively as a substring. -/
theorem c2_filter_conservative (lines : List String) (genome : String)
    (hne : lines ≠ []) :
    (filter_runinfo_by_scientific_name genome lines).tail.length ≤ lines.tail.length ∧
    (filter_runinfo_by_scientific_name genome lines).head? = lines.head? ∧
    ∀ line ∈ (filter_runinfo_by_scientific_name genome lines).tail,
      22 ≤ (pySplit ',' (rstripNewline line)).length ∧
      containsCI ((pySplit ',' (rstripNewline line)).getD 21 "") genome = true := by
  match lines with
  | [] => exact absurd rfl hne
  | header :: rest =>
    refine ⟨?_, rfl, ?_⟩
    · simpa [filter_runinfo_by_scientific_name] using List.length_filter_le _ rest
    · intro line hline
      rw [filter_runinfo_by_scientific_name] at hline
      have hmem := List.mem_filter.mp (by simpa using hline)
      have hk := hmem.2
      rw [keepRow, Bool.and_eq_true, decide_eq_true_eq] at hk
      exact ⟨hk.1, hk.2⟩

/-- Witness for C2 at a concrete two-line RunInfo file. -/
theorem c2_filter_conservative_witness :
    (["Run,X", "r1,a,b,c,d,e,f,g,h,i,j,k,l,m,n,o,p,q,r,s,t,Escherichia coli,x"]
        : List String) ≠ [] ∧
    ∀ line ∈ (filter_runinfo_by_scientific_name "escherichia"
        ["Run,X", "r1,a,b,c,d,e,f,g,h,i,j,k,l,m,n,o,p,q,r,s,t,Escherichia coli,x"]).tail,
      22 ≤ (pySplit ',' (rstripNewline line)).length ∧
      containsCI ((pySplit ',' (rstripNewline line)).getD 21 "") "escherichia" = true :=
  ⟨by decide,
    (c2_filter_conservative
      ["Run,X", "r1,a,b,c,d,e,f,g,h,i,j,k,l,m,n,o,p,q,r,s,t,Escherichia coli,x"]
      "escherichia" (by decide)).2.2⟩

/-! ### Claim C3: `wget_download` skip condition and re-run behaviour -/

/-- A filesystem snapshot for the downloader: the set of existing paths
with their sizes in bytes. -/
def pathExists (fs : List (String × Nat)) (p : String) : Bool :=
  fs.any (fun e => e.1 == p)

/-- `os.path.exists(p)` strengthened to "exists as a non-empty file",
the condition the specification claims the downloader tests. -/
def existsNonEmptyFile (fs : List (String × Nat)) (p : String) : Bool :=
  fs.any (fun e => e.1 == p && e.2 != 0)

/-- `wget_download(url, outpath)` invokes the `wget` transport exactly
when the guard `os.path.exists(outpath)` fails: mere existence is
tested, not file size. -/
def wget_invokes (fs : List (String × Nat)) (outpath : String) : Bool :=
  !(pathExists fs outpath)

/-- One row of a parsed RunInfo table, restricted to the columns
`download_from_runinfo` reads (`Run`, `BioSample`, `Download_path`). -/
structure RunRow where
  run : String
  bioSample : String
  downloadPath : String
deriving DecidableEq, Repr

/-- `os.path.basename` for the slash-separated URLs/paths involved. -/
def basenameOf (p : String) : String := (pySplit '/' p).getLastD ""

/-- URL selection in `download_from_runinfo`: split `Download_path` on
`|` and keep entries starting with `ftp://` or `http://`. -/
def taskURLs (downloadPath : String) : List String :=
  (pySplit '|' downloadPath).filter
    (fun u => isPrefixL "ftp://".data u.data || isPrefixL "http://".data u.data)

/-- Task derivation of `download_from_runinfo`: rows with empty
`BioSample` or `Download_path` (or no retained URL) are skipped, every
retained URL yields one `(url, species_dir/biosample/basename)` task. -/
def tasksOf (speciesDir : String) (rows : List RunRow) : List (String × String) :=
  rows.flatMap (fun r =>
    if r.bioSample = "" || r.downloadPath = "" then []
    else if taskURLs r.downloadPath = [] then []
    else (taskURLs r.downloadPath).map
      (fun u => (u, speciesDir ++ "/" ++ r.bioSample ++ "/" ++ basenameOf u)))

/-- The tasks of one downloader run that actually invoke the transport
against filesystem snapshot `fs`. -/
def transportCalls (fs : List (String × Nat)) (tasks : List (String × String)) :
    List (String × String) :=
  tasks.filter (fun t => wget_invokes fs t.2)

/-- Counterexample to C1's claimed skip condition in C3: a destination
existing as an EMPTY file.  `wget_download` still skips (the transport
is not invoked), yet the path does not exist as a non-empty file, so
"skips exactly when the destination exists as a non-empty file" is
false on the code. -/
theorem c3_skip_counterexample :
    ¬ ((wget_invokes [("DLs/Sp/SAMC1/a_1.fastq.gz", 0)] "DLs/Sp/SAMC1/a_1.fastq.gz"
          = false) ↔
       (existsNonEmptyFile [("DLs/Sp/SAMC1/a_1.fastq.gz", 0)] "DLs/Sp/SAMC1/a_1.fastq.gz"
          = true)) := by
  decide

/-- C3 amended.  The downloader skips a task without invoking the
transport exactly when the destination path already EXISTS (any size);
consequently a second run over the same RunInfoTable against a
destination where every task's output path exists issues zero transport
calls. -/
theorem c3_amended_skip_iff_exists (fs : List (String × Nat)) (p : String)
    (speciesDir : String) (rows : List RunRow)
    (hpop : ∀ t ∈ tasksOf speciesDir rows, pathExists fs t.2 = true) :
    (wget_invokes fs p = false ↔ pathExists fs p = true) ∧
    transportCalls fs (tasksOf speciesDir rows) = [] := by
  constructor
  · rw [wget_invokes]
    cases pathExists fs p <;> simp
  · rw [transportCalls, List.filter_eq_nil_iff]
    intro t ht
    rw [wget_invokes, hpop t ht]
    simp

/-- Witness for C3's amended theorem: a fully populated destination
(the empty-file destination included) produces zero transport calls on
the second run. -/
theorem c3_amended_skip_iff_exists_witness :
    (∀ t ∈ tasksOf "DLs/Sp"
        [⟨"r1", "SAMC1", "http://x/a_1.fastq.gz|http://x/a_2.fastq.gz"⟩],
      pathExists [("DLs/Sp/SAMC1/a_1.fastq.gz", 0), ("DLs/Sp/SAMC1/a_2.fastq.gz", 7)]
        t.2 = true) ∧
    transportCalls [("DLs/Sp/SAMC1/a_1.fastq.gz", 0), ("DLs/Sp/SAMC1/a_2.fastq.gz", 7)]
      (tasksOf "DLs/Sp"
        [⟨"r1", "SAMC1", "http://x/a_1.fastq.gz|http://x/a_2.fastq.gz"⟩]) = [] :=
  ⟨by decide,
    (c3_amended_skip_iff_exists
      [("DLs/Sp/SAMC1/a_1.fastq.gz", 0), ("DLs/Sp/SAMC1/a_2.fastq.gz", 7)]
      "unused" "DLs/Sp"
      [⟨"r1", "SAMC1", "http://x/a_1.fastq.gz|http://x/a_2.fastq.gz"⟩]
      (by decide)).2⟩

/-! ### Claims C4 and C6: the BioSample metadata table -/

/-- Keys of one sample metadata record (a Python dict modelled as an
association list in insertion order, duplicate-free by construction). -/
def keysOf (rec : List (String × String)) : List String := rec.map Prod.fst

/-- Python `r.get(k, "")` on a record. -/
def dget (rec : List (String × String)) (k : String) : String :=
  match rec.find? (fun kv => kv.1 == k) with
  | some kv => kv.2
  | none => ""

/-- The union of all attribute keys across the fetched records
(`all_keys` in `write_biosample_metadata_parallel`). -/
def unionKeys (records : List (List (String × String))) : List String :=
  ((records.map keysOf).flatten).dedup

/-- The output columns of `write_biosample_metadata_parallel`:
`BioSample` first, the remaining keys sorted, and any `Attributes`
column dropped before the final write. -/
def metadataColumns (records : List (List (String × String))) : List String :=
  ("BioSample" :: pysorted ((unionKeys records).filter (fun k => k != "BioSample"))).filter
    (fun k => k != "Attributes")

/-- One output row: `{k: r.get(k, "") for k in all_keys}` restricted to
the surviving columns. -/
def metadataRow (records : List (List (String × String)))
    (rec : List (String × String)) : List String :=
  (metadataColumns records).map (dget rec)

/-- All output rows, in the order the records were collected
(`as_completed` order in the source). -/
def metadataRows (records : List (List (String × String))) : List (List String) :=
  records.map (metadataRow records)

/-- C4. For a non-empty record set the written columns are exactly the
union of all record keys, `BioSample` first, the rest in lexicographic
order, minus any `Attributes` column; and every row has one entry per
column, a key missing from the record rendering as the empty string. -/
theorem c4_metadata_merge_complete
    (records : List (List (String × String))) (_hne : records ≠ []) :
    (metadataColumns records).head? = some "BioSample" ∧
    List.Sorted (· ≤ ·) (metadataColumns records).tail ∧
    (∀ k, k ∈ metadataColumns records ↔
      (k = "BioSample" ∨
        (k ∈ unionKeys records ∧ k ≠ "BioSample" ∧ k ≠ "Attributes"))) ∧
    (∀ rec ∈ records,
      (metadataRow records rec).length = (metadataColumns records).length ∧
      ∀ k ∈ metadataColumns records, k ∉ keysOf rec → dget rec k = "") := by
  have hBA : (("BioSample" : String) != "Attributes") = true := by decide
  have hcols : metadataColumns records =
      "BioSample" ::
        (pysorted ((unionKeys records).filter (fun k => k != "BioSample"))).filter
          (fun k => k != "Attributes") := by
    rw [metadataColumns, List.filter_cons, if_pos hBA]
  refine ⟨?_, ?_, ?_, ?_⟩
  · rw [hcols]; rfl
  · rw [hcols]
    exact List.Sorted.filter _
      (List.sorted_insertionSort (· ≤ ·)
        ((unionKeys records).filter (fun k => k != "BioSample")))
  · intro k
    rw [hcols]
    by_cases hk : k = "BioSample"
    · subst hk
      simp
    · simp only [List.mem_cons, List.mem_filter, pysorted, List.mem_insertionSort,
        bne_iff_ne, ne_eq]
      constructor
      · rintro (h | ⟨⟨hu, hb⟩, ha⟩)
        · exact absurd h hk
        · exact Or.inr ⟨hu, hb, ha⟩
      · rintro (h | ⟨hu, hb, ha⟩)
        · exact absurd h hk
        · exact Or.inr ⟨⟨hu, hb⟩, ha⟩
  · intro rec _
    refine ⟨List.length_map _ _, ?_⟩
    intro k _ hnk
    rw [dget]
    have : (rec.find? (fun kv => kv.1 == k)) = none := by
      rw [List.find?_eq_none]
      intro kv hkv hbeq
      exact hnk (List.mem_map.mpr ⟨kv, hkv, by simpa using hbeq⟩)
    rw [this]

/-- Witness for C4 at a concrete pair of records with distinct keys. -/
theorem c4_metadata_merge_complete_witness :
    ([[("BioSample", "SAMC1"), ("host", "human")],
      [("BioSample", "SAMC2"), ("strain", "K12")]]
        : List (List (String × String))) ≠ [] ∧
    (metadataColumns
      [[("BioSample", "SAMC1"), ("host", "human")],
       [("BioSample", "SAMC2"), ("strain", "K12")]]).head? = some "BioSample" :=
  ⟨by decide,
    (c4_metadata_merge_complete
      [[("BioSample", "SAMC1"), ("host", "human")],
       [("BioSample", "SAMC2"), ("strain", "K12")]] (by decide)).1⟩

/-- Concatenating a permuted list of lists yields a permutation of the
concatenation. -/
theorem flatten_perm_of_perm {α : Type} {ll₁ ll₂ : List (List α)} (h : ll₁.Perm ll₂) :
    ll₁.flatten.Perm ll₂.flatten := by
  induction h with
  | nil => simp
  | cons x _ ih => simpa using ih.append_left x
  | swap x y l =>
    simp only [List.flatten_cons]
    rw [← List.append_assoc, ← List.append_assoc]
    exact List.perm_append_comm.append_right _
  | trans _ _ ih₁ ih₂ => exact ih₁.trans ih₂

/-- The columns of the metadata table do not depend on the order in
which the concurrent fetch tasks completed. -/
theorem metadataColumns_perm_invariant
    {records records' : List (List (String × String))}
    (h : records.Perm records') :
    metadataColumns records = metadataColumns records' := by
  have hu : (unionKeys records).Perm (unionKeys records') :=
    (flatten_perm_of_perm (h.map keysOf)).dedup
  have hf := hu.filter (fun k => k != "BioSample")
  have hsorted :
      pysorted ((unionKeys records).filter (fun k => k != "BioSample")) =
      pysorted ((unionKeys records').filter (fun k => k != "BioSample")) := by
    refine @List.eq_of_perm_of_sorted String (fun a b => a ≤ b) _ _ _ ?_ ?_ ?_
    · exact ((List.perm_insertionSort _ _).trans hf).trans
        (List.perm_insertionSort _ _).symm
    · exact List.sorted_insertionSort _ _
    · exact List.sorted_insertionSort _ _
  rw [metadataColumns, metadataColumns, hsorted]

/-- Counterexample to C6: with two records completing in opposite
orders, the rendered row lists differ (rows are written in completion
order, not re-sorted by sample id), although the two record multisets
are equal.  The output is therefore not byte-identical across runs. -/
theorem c6_completion_order_counterexample :
    ([[("BioSample", "SAMC1")], [("BioSample", "SAMC2")]]
        : List (List (String × String))).Perm
      [[("BioSample", "SAMC2")], [("BioSample", "SAMC1")]] ∧
    metadataRows [[("BioSample", "SAMC1")], [("BioSample", "SAMC2")]] ≠
      metadataRows [[("BioSample", "SAMC2")], [("BioSample", "SAMC1")]] := by
  constructor
  · exact List.Perm.swap _ _ _
  · decide

/-- C6 amended.  Two runs differing only in task completion order
produce the same header (column list) and the same multiset of rows,
but row order follows completion order: the outputs agree only up to
row permutation, and byte-identical output is not guaranteed. -/
theorem c6_amended_rows_perm
    (records records' : List (List (String × String)))
    (h : records.Perm records') :
    metadataColumns records = metadataColumns records' ∧
    (metadataRows records).Perm (metadataRows records') := by
  refine ⟨metadataColumns_perm_invariant h, ?_⟩
  rw [metadataRows, metadataRows]
  have hrow : records'.map (metadataRow records') =
      records'.map (metadataRow records) := by
    apply List.map_congr_left
    intro r _
    rw [metadataRow, metadataRow, metadataColumns_perm_invariant h]
  rw [hrow]
  exact h.map _

/-- Witness for C6's amended theorem at the two-record example. -/
theorem c6_amended_rows_perm_witness :
    ([[("BioSample", "SAMC1")], [("BioSample", "SAMC2")]]
        : List (List (String × String))).Perm
      [[("BioSample", "SAMC2")], [("BioSample", "SAMC1")]] ∧
    (metadataRows [[("BioSample", "SAMC1")], [("BioSample", "SAMC2")]]).Perm
      (metadataRows [[("BioSample", "SAMC2")], [("BioSample", "SAMC1")]]) :=
  ⟨List.Perm.swap _ _ _,
    (c6_amended_rows_perm _ _ (List.Perm.swap _ _ _)).2⟩

/-! ### Claims C7 and C9: the per-entity batch loop in `main` -/

/-- The result of processing one entity: `process_genome` either returns
a `(genome, rowCount, succeeded)` tuple normally, or raises, which we
model as an explicit exception value. -/
inductive POutcome where
  | ok (rowCount : Nat) (succeeded : Bool)
  | exn (msg : String)
deriving DecidableEq, Repr

/-- The `for g in genomes:` loop of `main`.  There is no per-entity
`try`/`except`: a normal return moves on to the next entity, while an
exception aborts the loop at that entity (the `finally` only releases
the driver).  Returns the list of entities whose processing was started
and the propagated exception, if any. -/
def batchAttempts (process : String → POutcome) : List String → List String × Option String
  | [] => ([], none)
  | g :: gs =>
    match process g with
    | POutcome.exn e => ([g], some e)
    | POutcome.ok _ _ =>
      ((g :: (batchAttempts process gs).1), (batchAttempts process gs).2)

/-- Unfolding of the batch loop around the first raising entity. -/
theorem batchAttempts_first_exn (process : String → POutcome)
    (pre : List String) (g : String) (post : List String) (e : String)
    (h1 : ∀ x ∈ pre, ∃ n b, process x = POutcome.ok n b)
    (h2 : process g = POutcome.exn e) :
    batchAttempts process (pre ++ g :: post) = (pre ++ [g], some e) := by
  induction pre with
  | nil => simp [batchAttempts, h2]
  | cons x xs ih =>
    obtain ⟨n, b, hx⟩ := h1 x (List.mem_cons_self x xs)
    have ihx := ih (fun y hy => h1 y (List.mem_cons_of_mem x hy))
    simp [batchAttempts, hx, ihx]

/-- The batch loop processes every entity when no entity raises. -/
theorem batchAttempts_all_ok (process : String → POutcome) (gs : List String)
    (h : ∀ x ∈ gs, ∃ n b, process x = POutcome.ok n b) :
    batchAttempts process gs = (gs, none) := by
  induction gs with
  | nil => rfl
  | cons g gs ih =>
    obtain ⟨n, b, hg⟩ := h g (List.mem_cons_self g gs)
    have ihg := ih (fun y hy => h y (List.mem_cons_of_mem g hy))
    simp [batchAttempts, hg, ihg]

/-- A concrete per-entity processor whose first entity raises. -/
def procBoom : String → POutcome :=
  fun g => if g = "Species A" then POutcome.exn "boom" else POutcome.ok 3 true

/-- Counterexample to C7: with `procBoom`, the exception of the first
entity stops the loop before the second entity is processed, and the
exception propagates out of the loop (non-zero process exit), contrary
to "proceeds to process every remaining entity" and "never terminates
the batch or affects the process exit code". -/
theorem c7_exception_halts_batch_counterexample :
    (batchAttempts procBoom ["Species A", "Species B"]).1 ≠ ["Species A", "Species B"] ∧
    (batchAttempts procBoom ["Species A", "Species B"]).2 ≠ none := by
  decide

/-- C7 amended.  The orchestrator runs entities sequentially with no
per-entity exception handler: entities whose processing returns
normally never halt the batch, but the first entity whose processing
raises ends the run there — later entities are not processed and the
exception escapes (the per-entity outcome tuples are returned but never
aggregated). -/
theorem c7_amended_batch_stops_at_first_exn (process : String → POutcome)
    (pre post : List String) (g : String) (e : String)
    (h1 : ∀ x ∈ pre, ∃ n b, process x = POutcome.ok n b)
    (h2 : process g = POutcome.exn e) :
    batchAttempts process pre = (pre, none) ∧
    batchAttempts process (pre ++ g :: post) = (pre ++ [g], some e) :=
  ⟨batchAttempts_all_ok process pre h1,
    batchAttempts_first_exn process pre g post e h1 h2⟩

/-- Witness for C7's amended theorem on a concrete two-entity batch. -/
theorem c7_amended_batch_stops_at_first_exn_witness :
    batchAttempts procBoom (["Species B"] ++ "Species A" :: ["Species C"]) =
      (["Species B"] ++ ["Species A"], some "boom") :=
  (c7_amended_batch_stops_at_first_exn procBoom ["Species B"] ["Species C"]
    "Species A" "boom"
    (by intro x hx
        simp only [List.mem_singleton] at hx
        subst hx
        exact ⟨3, true, by decide⟩)
    (by decide)).2

/-- Parsing a RunInfo file, as `download_from_runinfo` does through
`pd.read_csv(usecols=["Run","BioSample","Download_path"], ...)`: an
empty file raises `EmptyDataError`; a header lacking one of the
required columns raises a usecols `ValueError`; otherwise each data
line contributes one (whitespace-stripped) row. -/
def parse_runinfo (lines : List String) : Except String (List RunRow) :=
  match lines with
  | [] => Except.error "EmptyDataError"
  | header :: rest =>
    match (pySplit ',' header).findIdx? (fun c => c == "Run"),
          (pySplit ',' header).findIdx? (fun c => c == "BioSample"),
          (pySplit ',' header).findIdx? (fun c => c == "Download_path") with
    | some iR, some iB, some iD =>
      Except.ok (rest.map (fun line =>
        ⟨pyStripStr ((pySplit ',' line).getD iR ""),
         pyStripStr ((pySplit ',' line).getD iB ""),
         pyStripStr ((pySplit ',' line).getD iD "")⟩))
    | _, _, _ => Except.error "ValueError: usecols"

/-- The content of one line after the `truncate_runinfo` pass, as later
line-oriented readers see it (the emitted trailing newline is the line
terminator, consumed again when the file is re-read as lines):
`",".join(line.strip().split(",")[:n])`. -/
def truncate_line_str (n : Nat) (s : String) : String :=
  ⟨joinComma ((splitComma (pyStripL s.data)).take n)⟩

/-- The RunInfo table of one entity after `process_genome`'s two
rewrite passes: `truncate_runinfo(final_csv, ncols=22)` followed by
`filter_runinfo_by_scientific_name(final_csv, genome)`. -/
def runinfo_after_passes (genome : String) (lines : List String) : List String :=
  filter_runinfo_by_scientific_name genome (lines.map (truncate_line_str 22))

/-- The per-entity pipeline of `process_genome` relevant to claim C9,
including the guards that precede any table parse.  `none` stands for
`find_latest_runinfo` returning no file (it only ever selects files
with `st_size > 0`, so a zero-byte download never reaches the table
passes).  After truncate and filter, `n_rows <= 0` (at most the header
line left) returns early with a skip outcome and the loop continues.
Only then does the metadata phase index `df["BioSample"]` (a `KeyError`
if that column is absent) and, in a non-dry run,
`download_from_runinfo` parse the table with its three required
columns; either error propagates uncaught.  The browser-driven scrape
between the two reads is external and modelled as succeeding. -/
def process_genome_model (genome : String) (runinfo : Option (List String)) : POutcome :=
  match runinfo with
  | none => POutcome.ok 0 false
  | some lines =>
    if (runinfo_after_passes genome lines).length ≤ 1 then POutcome.ok 0 false
    else if (pySplit ',' ((runinfo_after_passes genome lines).headD "")).contains
        "BioSample" then
      match parse_runinfo (runinfo_after_passes genome lines) with
      | Except.error e => POutcome.exn e
      | Except.ok rows => POutcome.ok rows.length true
    else POutcome.exn "KeyError: BioSample"

/-- One entity of `main`'s loop: `process_genome` on the RunInfo file
the discovery phase deposited for that entity (the entity name is also
the scientific-name filter query). -/
def entity_step (discovered : String → Option (List String)) (g : String) : POutcome :=
  process_genome_model g (discovered g)

/-- A RunInfo header with 22 columns in which `Run` and `BioSample`
are present but `Download_path` is missing. -/
def badHeader : String :=
  "Run,BioSample,c2,c3,c4,c5,c6,c7,c8,c9,c10,c11,c12,c13,c14,c15,c16,c17,c18,c19,c20,ScientificName"

/-- A 22-column data row whose ScientificName column (index 21)
matches the entity `Species A`. -/
def badRow : String :=
  "r1,SAMC1,x,x,x,x,x,x,x,x,x,x,x,x,x,x,x,x,x,x,x,Species A"

/-- A concrete run: `Species A` discovered a RunInfo table with one
matching data row but no `Download_path` column; `Species B` got no
RunInfo file at all. -/
def runinfoDiscoveredExample : String → Option (List String) :=
  fun g => if g = "Species A" then some [badHeader, badRow] else none

/-- Counterexample to C9: `Species A`'s RunInfo survives all of
`process_genome`'s guards (it keeps one data row), its header is then
unparsable for `download_from_runinfo` (no `Download_path` column), and
the resulting parse failure aborts the batch at that entity —
`Species B` is never processed — contrary to "the entity is skipped and
logged rather than aborting the run".  (An empty RunInfo file, by
contrast, never reaches the parse at all: see the guard conjuncts of
the amended theorem.) -/
theorem c9_unparsable_header_aborts_counterexample :
    parse_runinfo (runinfo_after_passes "Species A" [badHeader, badRow]) =
      Except.error "ValueError: usecols" ∧
    batchAttempts (entity_step runinfoDiscoveredExample) ["Species A", "Species B"] =
      (["Species A"], some "ValueError: usecols") ∧
    batchAttempts (entity_step runinfoDiscoveredExample) ["Species A", "Species B"] ≠
      (["Species A", "Species B"], none) := by
  refine ⟨?_, ?_, ?_⟩
  · rfl
  · decide
  · decide

/-- C9 amended.  A RunInfo file that is missing or that yields no data
rows never reaches the table parse: `find_latest_runinfo`'s non-empty
filter and the `n_rows <= 0` early return skip the entity with a normal
outcome and the run continues.  When the filtered table does keep data
rows and its header (containing `BioSample`) is nevertheless missing a
required column, the parse in `download_from_runinfo` fails, and that
failure is NOT recoverable per entity: it propagates into `main`'s
loop, which aborts at that entity and processes none of the remaining
ones. -/
theorem c9_amended_guarded_parse_failure_aborts
    (discovered : String → Option (List String)) (pre post : List String)
    (g : String) (lines : List String) (e : String)
    (hg : discovered g = some lines)
    (hn : 1 < (runinfo_after_passes g lines).length)
    (hb : (pySplit ',' ((runinfo_after_passes g lines).headD "")).contains
      "BioSample" = true)
    (he : parse_runinfo (runinfo_after_passes g lines) = Except.error e)
    (h1 : ∀ x ∈ pre, ∃ n b, entity_step discovered x = POutcome.ok n b) :
    (∀ g2, discovered g2 = none → entity_step discovered g2 = POutcome.ok 0 false) ∧
    (∀ g2 lines2, discovered g2 = some lines2 →
      (runinfo_after_passes g2 lines2).length ≤ 1 →
      entity_step discovered g2 = POutcome.ok 0 false) ∧
    batchAttempts (entity_step discovered) (pre ++ g :: post) = (pre ++ [g], some e) := by
  refine ⟨?_, ?_, ?_⟩
  · intro g2 hnone
    simp [entity_step, process_genome_model, hnone]
  · intro g2 lines2 hsome hlen
    simp [entity_step, process_genome_model, hsome, hlen]
  · apply batchAttempts_first_exn _ pre g post e h1
    have hlen : ¬((runinfo_after_passes g lines).length ≤ 1) := Nat.not_le.mpr hn
    simp [entity_step, process_genome_model, hg, hlen, he]
    intro hnot
    exfalso
    apply hnot
    have hD : (runinfo_after_passes g lines).headD "" =
        (runinfo_after_passes g lines).head?.getD "" := by
      cases runinfo_after_passes g lines <;> rfl
    rw [← hD]
    simpa using hb

/-- Witness for C9's amended theorem on the concrete run. -/
theorem c9_amended_guarded_parse_failure_aborts_witness :
    runinfoDiscoveredExample "Species A" = some [badHeader, badRow] ∧
    batchAttempts (entity_step runinfoDiscoveredExample)
        ([] ++ "Species A" :: ["Species B"]) =
      ([] ++ ["Species A"], some "ValueError: usecols") :=
  ⟨by decide,
    (c9_amended_guarded_parse_failure_aborts runinfoDiscoveredExample [] ["Species B"]
      "Species A" [badHeader, badRow] "ValueError: usecols"
      (by decide) (by decide) (by decide) rfl
      (by intro x hx; cases hx)).2.2⟩

/-! ### Claim C8: merging metadata sources in `scrape_biosample_metadata`
(the second, effective definition of that name in `GSA_tools.py`). -/

/-- `re.sub(r"\s+", "_", key)`: each maximal run of whitespace becomes
a single underscore.  The Boolean argument records whether the previous
character was whitespace. -/
def squashWSAux : List Char → Bool → List Char
  | [], _ => []
  | c :: cs, inRun =>
    if isPyWS c then
      (if inRun then squashWSAux cs true else '_' :: squashWSAux cs true)
    else c :: squashWSAux cs false

/-- Key normalisation applied to every scraped table key:
`key = row.th.text.strip()` then `re.sub(r"\s+", "_", key)`. -/
def normKey (k : String) : String := ⟨squashWSAux (pyStripL k.data) false⟩

/-- Python dict assignment `d[k] = v`: update in place when the key is
present, else append, preserving insertion order. -/
def dinsert (d : List (String × String)) (k v : String) : List (String × String) :=
  if d.any (fun kv => kv.1 == k) then
    d.map (fun kv => if kv.1 == k then (k, v) else kv)
  else d ++ [(k, v)]

/-- The record built by the effective `scrape_biosample_metadata`:
start from `{"BioSample": biosample}`, insert every attribute-table row
unconditionally, then insert every supplementary row whose normalised
key is not `"Accession"` (the guard the code actually has under the
comment "Avoid overwriting BioSample"). -/
def scrape_biosample_metadata (biosample : String)
    (attrRows : List (String × String)) (extraRows : List (String × String)) :
    List (String × String) :=
  let r0 := [("BioSample", biosample)]
  let r1 := attrRows.foldl
    (fun d kv => dinsert d (normKey kv.1) (pyStripStr kv.2)) r0
  extraRows.foldl
    (fun d kv =>
      if normKey kv.1 ≠ "Accession" then dinsert d (normKey kv.1) (pyStripStr kv.2)
      else d) r1

/-- C8 (showing the code bug).  A supplementary row keyed `BioSample`
passes the `key != "Accession"` guard and DOES overwrite the queried
sample id, although both the claim and the code's own comment
("Avoid overwriting BioSample") require that it never be overwritten. -/
theorem c8_biosample_overwritten_by_extra_row :
    dget (scrape_biosample_metadata "SAMC0001" [] [("BioSample", "SAMC9999")])
        "BioSample" = "SAMC9999" ∧
    ("SAMC9999" : String) ≠ "SAMC0001" := by
  constructor
  · rfl
  · decide

/-! ### Claim C5: idempotence of `truncate_runinfo` -/

/-- Whether a field ends in a Python-whitespace character (the
character `line.strip()` would remove on a later pass). -/
def hasTrailWS (f : List Char) : Bool :=
  match f.getLast? with
  | some c => isPyWS c
  | none => false

/-- One line of `truncate_runinfo`:
`",".join(line.strip().split(",")[:ncols]) + "\n"`. -/
def truncLine (n : Nat) (l : List Char) : List Char :=
  joinComma ((splitComma (pyStripL l)).take n) ++ ['\n']

/-- `truncate_runinfo` over a file given as its list of raw lines. -/
def truncate_runinfo (n : Nat) (lines : List (List Char)) : List (List Char) :=
  lines.map (truncLine n)

theorem splitComma_ne_nil (l : List Char) : splitComma l ≠ [] := by
  induction l with
  | nil => simp [splitComma, splitOnCharL]
  | cons c cs ih =>
    rw [splitComma, splitOnCharL]
    split
    · simp
    · split
      · simp
      · simp

theorem splitComma_cons_comma (cs : List Char) :
    splitComma (',' :: cs) = [] :: splitComma cs := by
  rw [splitComma, splitOnCharL]
  simp

theorem splitComma_cons_other (c : Char) (cs f : List Char) (r : List (List Char))
    (hc : c ≠ ',') (h : splitComma cs = f :: r) :
    splitComma (c :: cs) = (c :: f) :: r := by
  rw [splitComma, splitOnCharL, if_neg hc]
  rw [splitComma] at h
  rw [h]

theorem mem_splitComma_no_comma (l : List Char) :
    ∀ p ∈ splitComma l, ',' ∉ p := by
  induction l with
  | nil =>
    intro p hp
    simp [splitComma, splitOnCharL] at hp
    simp [hp]
  | cons c cs ih =>
    intro p hp
    by_cases hc : c = ','
    · subst hc
      rw [splitComma_cons_comma] at hp
      rcases List.mem_cons.mp hp with h | h
      · simp [h]
      · exact ih p h
    · obtain ⟨f, r, hfr⟩ : ∃ f r, splitComma cs = f :: r := by
        cases h : splitComma cs with
        | nil => exact absurd h (splitComma_ne_nil cs)
        | cons f r => exact ⟨f, r, rfl⟩
      rw [splitComma_cons_other c cs f r hc hfr] at hp
      rcases List.mem_cons.mp hp with h | h
      · subst h
        intro hmem
        rcases List.mem_cons.mp hmem with h | h
        · exact hc h.symm
        · exact ih f (hfr ▸ List.mem_cons_self f r) h
      · exact ih p (hfr ▸ List.mem_cons_of_mem f h)

theorem joinComma_splitComma (l : List Char) : joinComma (splitComma l) = l := by
  induction l with
  | nil => rfl
  | cons c cs ih =>
    obtain ⟨f, r, hfr⟩ : ∃ f r, splitComma cs = f :: r := by
      cases h : splitComma cs with
      | nil => exact absurd h (splitComma_ne_nil cs)
      | cons f r => exact ⟨f, r, rfl⟩
    by_cases hc : c = ','
    · subst hc
      rw [splitComma_cons_comma, hfr]
      rw [hfr] at ih
      rw [joinComma]
      simpa using ih
    · rw [splitComma_cons_other c cs f r hc hfr]
      rw [hfr] at ih
      cases r with
      | nil =>
        rw [joinComma] at ih ⊢
        rw [ih]
      | cons g r2 =>
        rw [joinComma] at ih ⊢
        rw [← ih]
        simp

theorem splitComma_no_comma (p : List Char) (hp : ',' ∉ p) : splitComma p = [p] := by
  induction p with
  | nil => rfl
  | cons c p2 ih =>
    have hc : c ≠ ',' := by
      intro h
      exact hp (h ▸ List.mem_cons_self c p2)
    have h2 : splitComma p2 = [p2] := ih (fun h => hp (List.mem_cons_of_mem c h))
    exact splitComma_cons_other c p2 p2 [] hc h2

theorem splitComma_append_comma (p t : List Char) (hp : ',' ∉ p) :
    splitComma (p ++ ',' :: t) = p :: splitComma t := by
  induction p with
  | nil => simpa using splitComma_cons_comma t
  | cons c p2 ih =>
    have hc : c ≠ ',' := by
      intro h
      exact hp (h ▸ List.mem_cons_self c p2)
    have h2 := ih (fun h => hp (List.mem_cons_of_mem c h))
    simpa using splitComma_cons_other c (p2 ++ ',' :: t) p2 (splitComma t) hc h2

theorem splitComma_joinComma (ps : List (List Char)) (hne : ps ≠ [])
    (h : ∀ p ∈ ps, ',' ∉ p) : splitComma (joinComma ps) = ps := by
  induction ps with
  | nil => exact absurd rfl hne
  | cons p r ih =>
    cases r with
    | nil =>
      rw [joinComma]
      exact splitComma_no_comma p (h p (List.mem_cons_self p []))
    | cons q r2 =>
      rw [joinComma]
      rw [splitComma_append_comma p _ (h p (List.mem_cons_self p _))]
      rw [ih (by simp) (fun x hx => h x (List.mem_cons_of_mem p hx))]

theorem joinComma_append (a b : List (List Char)) (ha : a ≠ []) (hb : b ≠ []) :
    joinComma (a ++ b) = joinComma a ++ ',' :: joinComma b := by
  induction a with
  | nil => exact absurd rfl ha
  | cons x a2 ih =>
    cases a2 with
    | nil =>
      cases b with
      | nil => exact absurd rfl hb
      | cons y b2 => simp [joinComma]
    | cons z a3 =>
      have h2 := ih (by simp)
      rw [List.cons_append] at h2
      rw [List.cons_append, List.cons_append, joinComma, h2, joinComma]
      simp

theorem head_dropWhile_not {α : Type} (p : α → Bool) (l : List α) (c : α)
    (h : (l.dropWhile p).head? = some c) : p c = false := by
  induction l with
  | nil => cases h
  | cons a t ih =>
    rw [List.dropWhile_cons] at h
    by_cases hp : p a = true
    · rw [if_pos hp] at h
      exact ih h
    · rw [if_neg hp] at h
      cases h
      exact Bool.eq_false_iff.mpr hp

theorem rstripL_getLast_not_ws (l : List Char) (c : Char)
    (h : (rstripL l).getLast? = some c) : isPyWS c = false := by
  rw [rstripL, List.getLast?_reverse] at h
  exact head_dropWhile_not isPyWS l.reverse c h

theorem pyStripL_getLast_not_ws (l : List Char) (c : Char)
    (h : (pyStripL l).getLast? = some c) : isPyWS c = false :=
  rstripL_getLast_not_ws (lstripL l) c h

theorem pyStripL_hasTrailWS (l : List Char) : hasTrailWS (pyStripL l) = false := by
  rw [hasTrailWS]
  cases h : (pyStripL l).getLast? with
  | none => rfl
  | some c => exact pyStripL_getLast_not_ws l c h

theorem rstripL_append_eq (l : List Char) : l = rstripL l ++ (l.reverse.takeWhile isPyWS).reverse := by
  rw [rstripL, ← List.reverse_append, List.takeWhile_append_dropWhile, List.reverse_reverse]

theorem head?_append_of_head? {α : Type} (a t : List α) (c : α)
    (h : a.head? = some c) : (a ++ t).head? = some c := by
  cases a with
  | nil => cases h
  | cons x a2 =>
    cases h
    rfl

theorem head?_of_rstripL (l : List Char) (c : Char)
    (h : (rstripL l).head? = some c) : l.head? = some c := by
  conv_lhs => rw [rstripL_append_eq l]
  exact head?_append_of_head? _ _ _ h

theorem pyStripL_head_not_ws (l : List Char) (c : Char)
    (h : (pyStripL l).head? = some c) : isPyWS c = false :=
  head_dropWhile_not isPyWS l c (head?_of_rstripL (lstripL l) c h)

theorem rstripL_append_newline (l : List Char) : rstripL (l ++ ['\n']) = rstripL l := by
  have hnl : isPyWS '\n' = true := by decide
  rw [rstripL, rstripL, List.reverse_append]
  simp [List.dropWhile_cons, hnl]

theorem rstripL_of_no_trail_ws (l : List Char) (h : hasTrailWS l = false) :
    rstripL l = l := by
  rw [rstripL]
  cases hr : l.reverse with
  | nil =>
    have : l = [] := by simpa using congrArg List.reverse hr
    simp [this]
  | cons a t =>
    have hga : l.getLast? = some a := by
      rw [← List.head?_reverse, hr]
      rfl
    have hwa : isPyWS a = false := by
      rw [hasTrailWS, hga] at h
      exact h
    rw [List.dropWhile_cons, hwa]
    simp only [Bool.false_eq_true, if_false]
    rw [← hr, List.reverse_reverse]

theorem lstripL_of_head_not_ws (l : List Char)
    (h : ∀ c, l.head? = some c → isPyWS c = false) : lstripL l = l := by
  cases l with
  | nil => rfl
  | cons a t =>
    rw [lstripL, List.dropWhile_cons, h a rfl]
    simp

theorem pyStripL_append_newline_id (j : List Char)
    (hh : ∀ c, j.head? = some c → isPyWS c = false)
    (hl : hasTrailWS j = false) :
    pyStripL (j ++ ['\n']) = j := by
  cases j with
  | nil => decide
  | cons a t =>
    rw [pyStripL]
    rw [lstripL_of_head_not_ws ((a :: t) ++ ['\n'])
      (fun c hc => hh c (by simpa using hc))]
    rw [rstripL_append_newline, rstripL_of_no_trail_ws _ hl]

theorem hasTrailWS_joinComma_concat (ks : List (List Char)) (f : List Char)
    (hf : hasTrailWS f = false) :
    hasTrailWS (joinComma (ks ++ [f])) = false := by
  cases ks with
  | nil => simpa [joinComma] using hf
  | cons a t =>
    rw [joinComma_append (a :: t) [f] (by simp) (by simp)]
    rw [show joinComma [f] = f from rfl]
    cases f with
    | nil =>
      rw [hasTrailWS]
      rw [List.getLast?_append_cons]
      decide
    | cons c t2 =>
      rw [hasTrailWS] at hf ⊢
      rw [List.getLast?_append_cons, List.getLast?_cons_cons]
      exact hf

theorem joinComma_head_no_ws (s : List Char) (kept : List (List Char))
    (hsws : ∀ c, s.head? = some c → isPyWS c = false)
    (hpre : ∃ t, s = joinComma kept ++ t) :
    ∀ c, (joinComma kept).head? = some c → isPyWS c = false := by
  intro c hc
  obtain ⟨t, ht⟩ := hpre
  exact hsws c (ht ▸ head?_append_of_head? _ _ _ hc)

theorem truncLine_idem (n : Nat) (l : List Char)
    (h : (splitComma (pyStripL l)).length ≤ n ∨
         hasTrailWS ((splitComma (pyStripL l)).getD (n - 1) []) = false) :
    truncLine n (truncLine n l) = truncLine n l := by
  have key : joinComma
      ((splitComma (pyStripL
        (joinComma ((splitComma (pyStripL l)).take n) ++ ['\n']))).take n) =
      joinComma ((splitComma (pyStripL l)).take n) := by
    cases n with
    | zero => simp [joinComma]
    | succ m =>
      by_cases hlen : (splitComma (pyStripL l)).length ≤ m + 1
      · -- every field is kept: the once-truncated line is the stripped line
        rw [List.take_of_length_le hlen, joinComma_splitComma]
        have hid : pyStripL (pyStripL l ++ ['\n']) = pyStripL l := by
          apply pyStripL_append_newline_id
          · exact pyStripL_head_not_ws l
          · exact pyStripL_hasTrailWS l
        rw [hid, List.take_of_length_le hlen, joinComma_splitComma]
      · -- a proper truncation happened; use the no-trailing-whitespace bound
        have hlt : m + 1 < (splitComma (pyStripL l)).length := Nat.lt_of_not_le hlen
        have hm : m < (splitComma (pyStripL l)).length := Nat.lt_of_succ_lt hlt
        have hfm : (splitComma (pyStripL l))[m]? =
            some ((splitComma (pyStripL l))[m]) := List.getElem?_eq_getElem hm
        have htr : hasTrailWS ((splitComma (pyStripL l))[m]) = false := by
          rcases h with h | h
          · exact absurd h hlen
          · rw [Nat.succ_sub_one, List.getD_eq_getElem?_getD, hfm] at h
            exact h
        have hkept : (splitComma (pyStripL l)).take (m + 1) =
            (splitComma (pyStripL l)).take m ++ [(splitComma (pyStripL l))[m]] := by
          rw [List.take_succ, hfm]
          rfl
        have hkne : (splitComma (pyStripL l)).take (m + 1) ≠ [] := by
          intro hnil
          have hlnil := congrArg List.length hnil
          rw [List.length_take] at hlnil
          simp only [List.length_nil] at hlnil
          omega
        have hpieces : ∀ p ∈ (splitComma (pyStripL l)).take (m + 1), ',' ∉ p :=
          fun p hp => mem_splitComma_no_comma (pyStripL l) p (List.take_subset _ _ hp)
        have hjtrail :
            hasTrailWS (joinComma ((splitComma (pyStripL l)).take (m + 1))) = false := by
          rw [hkept]
          exact hasTrailWS_joinComma_concat _ _ htr
        have hjhead : ∀ c,
            (joinComma ((splitComma (pyStripL l)).take (m + 1))).head? = some c →
            isPyWS c = false := by
          apply joinComma_head_no_ws (pyStripL l)
          · exact pyStripL_head_not_ws l
          · -- the stripped line is the kept fields followed by the dropped tail
            refine ⟨',' :: joinComma ((splitComma (pyStripL l)).drop (m + 1)), ?_⟩
            conv_lhs => rw [← joinComma_splitComma (pyStripL l)]
            rw [← List.take_append_drop (m + 1) (splitComma (pyStripL l))]
            rw [joinComma_append _ _ hkne ?hdrop]
            case hdrop =>
              intro hd
              have := congrArg List.length hd
              rw [List.length_drop] at this
              simp only [List.length_nil] at this
              omega
            rw [List.take_append_drop]
        have hid : pyStripL
            (joinComma ((splitComma (pyStripL l)).take (m + 1)) ++ ['\n']) =
            joinComma ((splitComma (pyStripL l)).take (m + 1)) :=
          pyStripL_append_newline_id _ hjhead hjtrail
        rw [hid, splitComma_joinComma _ hkne hpieces]
        rw [List.take_of_length_le]
        rw [List.length_take]
        omega
  rw [truncLine, truncLine, key]

/-- Counterexample to C5: the line `a,b ,c` has three (≥ 2) fields, yet
truncating to 2 columns twice differs from truncating once — the first
pass emits `a,b ` whose trailing space the second pass's `strip()`
removes. -/
theorem c5_truncate_counterexample :
    2 ≤ (splitComma (pyStripL ("a,b ,c".data))).length ∧
    truncate_runinfo 2 (truncate_runinfo 2 ["a,b ,c".data]) ≠
      truncate_runinfo 2 ["a,b ,c".data] := by
  constructor
  · decide
  · decide

/-- C5 amended.  `truncate_runinfo n` applied twice equals applying it
once for any input each of whose lines has at least `n` comma-separated
fields AND, when a line has more than `n` fields, a truncation-surviving
final field with no trailing whitespace. -/
theorem c5_amended_truncate_idempotent (n : Nat) (lines : List (List Char))
    (h : ∀ l ∈ lines,
      n ≤ (splitComma (pyStripL l)).length ∧
      ((splitComma (pyStripL l)).length ≤ n ∨
        hasTrailWS ((splitComma (pyStripL l)).getD (n - 1) []) = false)) :
    truncate_runinfo n (truncate_runinfo n lines) = truncate_runinfo n lines := by
  simp only [truncate_runinfo, List.map_map]
  apply List.map_congr_left
  intro l hl
  simp only [Function.comp_apply]
  exact truncLine_idem n l (h l hl).2

/-- Witness for C5's amended theorem: a line with three fields,
truncated to two, whose second field has no trailing whitespace. -/
theorem c5_amended_truncate_idempotent_witness :
    (∀ l ∈ [("a,b,c".data)],
      2 ≤ (splitComma (pyStripL l)).length ∧
      ((splitComma (pyStripL l)).length ≤ 2 ∨
        hasTrailWS ((splitComma (pyStripL l)).getD 1 []) = false)) ∧
    truncate_runinfo 2 (truncate_runinfo 2 ["a,b,c".data]) =
      truncate_runinfo 2 ["a,b,c".data] :=
  ⟨by decide, c5_amended_truncate_idempotent 2 ["a,b,c".data] (by decide)⟩

/-! ### Claim C10: the embedded and the standalone manifest writers -/

instance : DecidableRel (fun a b : SampleDir => a.path ≤ b.path) :=
  fun a b => inferInstanceAs (Decidable (a.path ≤ b.path))

namespace GSATools

/-- The fixed 7-column manifest header written by
`GSA_tools.write_read_manifest`. -/
def manifestHeader : String :=
  "biosample_path\tfastq_count\tstatus\tshort_read_1\tshort_read_2\tlong_read_primary\tlong_read_extra\n"

/-- `sorted(biosample_dirs)` (paths in one parent differ in their last
component, so path-string order is the sort key). -/
def sortDirs (dirs : List SampleDir) : List SampleDir :=
  List.insertionSort (fun a b => a.path ≤ b.path) dirs

/-- `sorted(bucket)` for one role: the matching files of the directory
rendered as full path strings, sorted. -/
def bucketPaths (d : SampleDir) (r : Role) : List String :=
  pysorted ((d.files.filter (fun f => readRole f == r)).map
    (fun n => d.path ++ "/" ++ n))

/-- One manifest data row of `write_read_manifest`. -/
def manifestRow (d : SampleDir) : String :=
  let s1 := bucketPaths d Role.short1
  let s2 := bucketPaths d Role.short2
  let lr := bucketPaths d Role.long
  let has_short := !s1.isEmpty && !s2.isEmpty
  let has_long := !lr.isEmpty
  let status :=
    if has_short && has_long then "hybrid"
    else if has_short then "short_only"
    else if has_long then "long_only"
    else "unknown"
  let long_extra := if 1 < lr.length then String.intercalate ";" lr.tail else ""
  d.path ++ "\t" ++ toString d.files.length ++ "\t" ++ status ++ "\t" ++
    s1.headD "" ++ "\t" ++ s2.headD "" ++ "\t" ++ lr.headD "" ++ "\t" ++
    long_extra ++ "\n"

/-- `write_read_manifest` over a directory snapshot: with no sample
directories it prints a skip notice and writes nothing (`none`);
otherwise the header line followed by one row per directory in sorted
order. -/
def write_read_manifest (dirs : List SampleDir) : Option (List String) :=
  if dirs.isEmpty then none
  else some (manifestHeader :: (sortDirs dirs).map manifestRow)

end GSATools

namespace ReadManifestWriter

/-- `[_\.-]` in `read_manifest_writer.py`. -/
def sepChar (c : Char) : Bool := c == '_' || c == '.' || c == '-'

/-- `\.(f(ast)?q)\.gz$` in `read_manifest_writer.py`. -/
def fastqExt : List Char → Bool
  | '.' :: 'f' :: 'a' :: 's' :: 't' :: 'q' :: '.' :: 'g' :: 'z' :: [] => true
  | '.' :: 'f' :: 'q' :: '.' :: 'g' :: 'z' :: [] => true
  | _ => false

/-- `(?=[_\.-]?\.(f(ast)?q)\.gz$)` in `read_manifest_writer.py`. -/
def lookahead (s : List Char) : Bool :=
  fastqExt s ||
    (match s with
     | c :: t => sepChar c && fastqExt t
     | [] => false)

/-- `(?:[RrFf]?d)` plus lookahead in `read_manifest_writer.py`. -/
def tokenAt (d : Char) : List Char → Bool
  | c :: t =>
    ((c == 'r' || c == 'f') &&
      (match t with
       | c2 :: t2 => c2 == d && lookahead t2
       | [] => false)) ||
    (c == d && lookahead t)
  | [] => false

/-- `re.search` of the module-level `R1_RE`/`R2_RE` of
`read_manifest_writer.py`. -/
def searchAux (d : Char) : List Char → Bool → Bool
  | [], _ => false
  | c :: t, first =>
    (first && tokenAt d (c :: t)) || (sepChar c && tokenAt d t) || searchAux d t false

/-- `R1_RE.search(name)` / `R2_RE.search(name)` in
`read_manifest_writer.py`. -/
def regexSearch (d : Char) (name : String) : Bool :=
  searchAux d (lowerL name.data) true

/-- The `if R1_RE ... elif R2_RE ... else` classification of
`read_manifest_writer.main`. -/
def readRole (name : String) : Role :=
  if regexSearch '1' name then Role.short1
  else if regexSearch '2' name then Role.short2
  else Role.long

/-- The manifest header written by `read_manifest_writer.main`. -/
def manifestHeader : String :=
  "biosample_path\tfastq_count\tstatus\tshort_read_1\tshort_read_2\tlong_read_primary\tlong_read_extra\n"

/-- `sorted(biosample_dirs)` in `read_manifest_writer.main`. -/
def sortDirs (dirs : List SampleDir) : List SampleDir :=
  List.insertionSort (fun a b => a.path ≤ b.path) dirs

/-- `sorted(bucket)` for one role in `read_manifest_writer.main`. -/
def bucketPaths (d : SampleDir) (r : Role) : List String :=
  pysorted ((d.files.filter (fun f => readRole f == r)).map
    (fun n => d.path ++ "/" ++ n))

/-- One manifest data row of `read_manifest_writer.main`. -/
def manifestRow (d : SampleDir) : String :=
  let s1 := bucketPaths d Role.short1
  let s2 := bucketPaths d Role.short2
  let lr := bucketPaths d Role.long
  let has_short := !s1.isEmpty && !s2.isEmpty
  let has_long := !lr.isEmpty
  let status :=
    if has_short && has_long then "hybrid"
    else if has_short then "short_only"
    else if has_long then "long_only"
    else "unknown"
  let long_extra := if 1 < lr.length then String.intercalate ";" lr.tail else ""
  d.path ++ "\t" ++ toString d.files.length ++ "\t" ++ status ++ "\t" ++
    s1.headD "" ++ "\t" ++ s2.headD "" ++ "\t" ++ lr.headD "" ++ "\t" ++
    long_extra ++ "\n"

/-- The manifest produced by `read_manifest_writer.main` over a
directory snapshot: with no sample directories the script exits with an
error and writes no manifest (`none`); otherwise the header line
followed by one row per directory in sorted order. -/
def main_manifest (dirs : List SampleDir) : Option (List String) :=
  if dirs.isEmpty then none
  else some (manifestHeader :: (sortDirs dirs).map manifestRow)

end ReadManifestWriter

/-- The two independently translated regex searches agree. -/
theorem searchAux_standalone_eq (d : Char) (l : List Char) :
    ∀ b, ReadManifestWriter.searchAux d l b = GSATools.searchAux d l b := by
  induction l with
  | nil =>
    intro b
    rfl
  | cons c t ih =>
    intro b
    show ((b && ReadManifestWriter.tokenAt d (c :: t)) ||
        (ReadManifestWriter.sepChar c && ReadManifestWriter.tokenAt d t) ||
        ReadManifestWriter.searchAux d t false) = GSATools.searchAux d (c :: t) b
    rw [ih false]
    rfl

/-- The two independently translated classifiers agree. -/
theorem readRole_standalone_eq_embedded :
    ReadManifestWriter.readRole = GSATools.readRole := by
  funext n
  rw [ReadManifestWriter.readRole, GSATools.readRole,
    ReadManifestWriter.regexSearch, ReadManifestWriter.regexSearch,
    GSATools.regexSearch, GSATools.regexSearch,
    searchAux_standalone_eq, searchAux_standalone_eq]

/-- The two independently translated row renderers agree. -/
theorem manifestRow_standalone_eq :
    ReadManifestWriter.manifestRow = GSATools.manifestRow := by
  funext d
  simp only [ReadManifestWriter.manifestRow, GSATools.manifestRow,
    ReadManifestWriter.bucketPaths, GSATools.bucketPaths,
    readRole_standalone_eq_embedded]

/-- C10. Over any directory snapshot with at least one sample
directory, the standalone manifest writer and the manifest writer
embedded in the pipeline produce exactly the same manifest content:
same header, same rows, same order. -/
theorem c10_manifest_writers_equivalent (dirs : List SampleDir) (h : dirs ≠ []) :
    ReadManifestWriter.main_manifest dirs = GSATools.write_read_manifest dirs ∧
    (GSATools.write_read_manifest dirs).isSome = true := by
  constructor
  · rw [ReadManifestWriter.main_manifest, GSATools.write_read_manifest,
      manifestRow_standalone_eq]
    rfl
  · rw [GSATools.write_read_manifest]
    rw [if_neg (by simpa using h)]
    rfl

/-- Witness for C10 on a one-directory snapshot. -/
theorem c10_manifest_writers_equivalent_witness :
    ([⟨"reads/SAMC1", ["a_1.fastq.gz", "a_2.fastq.gz", "长nano.fq.gz"]⟩]
        : List SampleDir) ≠ [] ∧
    ReadManifestWriter.main_manifest
        [⟨"reads/SAMC1", ["a_1.fastq.gz", "a_2.fastq.gz", "长nano.fq.gz"]⟩] =
      GSATools.write_read_manifest
        [⟨"reads/SAMC1", ["a_1.fastq.gz", "a_2.fastq.gz", "长nano.fq.gz"]⟩] :=
  ⟨by simp,
    (c10_manifest_writers_equivalent
      [⟨"reads/SAMC1", ["a_1.fastq.gz", "a_2.fastq.gz", "长nano.fq.gz"]⟩]
      (by simp)).1⟩
